import Mathlib

/-!
# Verification of the `NetLayer` state-synchronization core (`src/net.rs`)

Shallow embedding of the Rust source in `src/net.rs`. Machine integers
(`u32`, `u8`, `u64`) are modelled as `Nat` with explicit truncation
`% 2^w` where overflow matters. Rust arithmetic whose overflow behaviour
depends on the build profile is modelled explicitly:

* a left/right shift whose amount is `≥` the bit width is an arithmetic
  overflow in Rust — it panics when overflow checks are enabled (the
  default `dev` profile) and masks the shift amount modulo the width in
  release builds.  The checked (panicking) semantics is primary and is
  modelled as `Option` (`none` = panic); the release (masking) semantics
  is also defined for comparison;
* `u32` addition overflow likewise panics under overflow checks and wraps
  in release; the checked semantics is modelled as `Option`.

`f32` scalars appear in two faithful views: on the wire and in session
state they are carried as their 32-bit patterns (`Nat < 2^32`, exactly
what the serializer reads and writes), and in the interpolation
arithmetic they are modelled as exact rationals `ℚ` with the source's
expressions translated term by term.  The `UdpSocket` is external: its
effects enter the model as explicit parameters (the optional received
datagram, the ignored transmission outcome).
-/

namespace Net

/-- Checked `u32` left shift, Rust `<<` under overflow checks: a shift
amount `≥ 32` is an arithmetic overflow (panic, modelled as `none`);
otherwise the result is truncated to 32 bits. -/
def shlCheckedU32 (a d : Nat) : Option Nat :=
  if d < 32 then some ((a <<< d) % 2 ^ 32) else none

/-- Release-build `u32` left shift: the shift amount is masked modulo 32
(Rust's defined wrapping behaviour when overflow checks are off). -/
def shlReleaseU32 (a d : Nat) : Nat :=
  (a <<< (d % 32)) % 2 ^ 32

/-- Checked `u32` addition, Rust `+` under overflow checks:
overflow past `2^32 - 1` panics (`none`). -/
def addCheckedU32 (a b : Nat) : Option Nat :=
  if a + b < 2 ^ 32 then some (a + b) else none

/-!
## Ack Tracker (`src/net.rs` lines 34–35, inside `NetLayer::recv`)

State is the pair `(ack, ack_bits)` (`remote_ack`, `remote_ack_bits` in
the spec's words).  `ackUpdate` is the update the source performs on an
incoming packet with sequence `s`, under checked arithmetic;
`ackUpdateRelease` is the same code under release semantics.
-/

/-- The ack/ack_bits update of `NetLayer::recv` on an incoming sequence
number `s`, translated line by line from
`if pkt.seq > self.ack { self.ack_bits = (self.ack_bits << (pkt.seq - self.ack)) | 1; self.ack = pkt.seq; }
else if pkt.seq < self.ack { self.ack_bits |= 1 << (self.ack - pkt.seq); }`
with Rust's checked shift. Returns the new `(ack, ack_bits)`,
or `none` when the shift overflows (panic). -/
def ackUpdate (ack bits s : Nat) : Option (Nat × Nat) :=
  if s > ack then
    (shlCheckedU32 bits (s - ack)).map (fun b => (s, b ||| 1))
  else if s < ack then
    (shlCheckedU32 1 (ack - s)).map (fun m => (ack, bits ||| m))
  else
    some (ack, bits)

/-- The same update under release-build semantics: the shift amount is
masked modulo 32, so distances of 32 or more reuse low shift amounts
instead of ageing the bits out. -/
def ackUpdateRelease (ack bits s : Nat) : Nat × Nat :=
  if s > ack then
    (s, shlReleaseU32 bits (s - ack) ||| 1)
  else if s < ack then
    (ack, (bits ||| shlReleaseU32 1 (ack - s)) % 2 ^ 32)
  else
    (ack, bits)

/-- The three-case rule exactly as the specification states it
(spec §4.2): a genuine 32-bit left shift (bits past the window are
discarded), set bit 0, advance `remote_ack`; or set bit
`(remote_ack - s)`; or no change. Total. -/
def specAckUpdate (ack bits s : Nat) : Nat × Nat :=
  if s > ack then
    (s, ((bits <<< (s - ack)) % 2 ^ 32) ||| 1)
  else if s < ack then
    (ack, (bits ||| (1 <<< (ack - s))) % 2 ^ 32)
  else
    (ack, bits)

/-- A shift amount of at most 31 keeps `1 <<< d` inside the 32-bit range. -/
theorem one_shl_lt_u32 {d : Nat} (hd : d ≤ 31) : 1 <<< d < 2 ^ 32 := by
  rw [Nat.one_shiftLeft]
  exact lt_of_le_of_lt (Nat.pow_le_pow_right (by norm_num) hd) (by norm_num)

/-- C1 (amended): provided the distance between the incoming sequence `s`
and the stored `remote_ack` is at most 31 — so the source's shifts stay in
range — the ack-tracker update follows the spec's three-case rule exactly:
for `s > remote_ack` the 32-bit ack-bits word is shifted left by
`s - remote_ack`, bit 0 is set and `remote_ack` becomes `s`; for
`s < remote_ack` bit `remote_ack - s` is set and `remote_ack` is
unchanged; for `s = remote_ack` nothing changes.  Moreover delivering the
same sequence a second time leaves the tracker state identical
(idempotence of duplicates). -/
theorem C1_ack_tracker_three_case_rule (ack bits s : Nat) (hb : bits < 2 ^ 32)
    (hgt : ack < s → s - ack ≤ 31) (hlt : s < ack → ack - s ≤ 31) :
    ackUpdate ack bits s = some (specAckUpdate ack bits s) ∧
    ∀ a b, ackUpdate ack bits s = some (a, b) → ackUpdate a b s = some (a, b) := by
  rcases Nat.lt_trichotomy ack s with h | h | h
  · have hd : s - ack < 32 := Nat.lt_succ_of_le (hgt h)
    have hmain : ackUpdate ack bits s = some (s, (bits <<< (s - ack)) % 2 ^ 32 ||| 1) := by
      simp only [ackUpdate, shlCheckedU32, gt_iff_lt, if_pos h, if_pos hd, Option.map_some']
    have hspec : specAckUpdate ack bits s = (s, (bits <<< (s - ack)) % 2 ^ 32 ||| 1) := by
      simp only [specAckUpdate, gt_iff_lt, if_pos h]
    refine ⟨by rw [hmain, hspec], ?_⟩
    intro a b hab
    rw [hmain] at hab
    injection hab with h1
    injection h1 with ha hbits
    subst ha; subst hbits
    simp [ackUpdate]
  · subst h
    have hmain : ackUpdate ack bits ack = some (ack, bits) := by
      simp [ackUpdate]
    have hspec : specAckUpdate ack bits ack = (ack, bits) := by
      simp [specAckUpdate]
    refine ⟨by rw [hmain, hspec], ?_⟩
    intro a b hab
    rw [hmain] at hab
    injection hab with h1
    injection h1 with ha hbits
    subst ha; subst hbits
    exact hmain
  · have hd : ack - s < 32 := Nat.lt_succ_of_le (hlt h)
    have hm : (1 <<< (ack - s)) % 2 ^ 32 = 1 <<< (ack - s) :=
      Nat.mod_eq_of_lt (one_shl_lt_u32 (hlt h))
    have hor : (bits ||| 1 <<< (ack - s)) % 2 ^ 32 = bits ||| 1 <<< (ack - s) :=
      Nat.mod_eq_of_lt (Nat.or_lt_two_pow hb (one_shl_lt_u32 (hlt h)))
    have hns : ¬ ack < s := Nat.not_lt.mpr (Nat.le_of_lt h)
    have hmain : ackUpdate ack bits s = some (ack, bits ||| 1 <<< (ack - s)) := by
      simp only [ackUpdate, shlCheckedU32, gt_iff_lt, if_neg hns, if_pos h, if_pos hd,
        Option.map_some']
      rw [hm]
    have hspec : specAckUpdate ack bits s = (ack, bits ||| 1 <<< (ack - s)) := by
      simp only [specAckUpdate, gt_iff_lt, if_neg hns, if_pos h]
      rw [hor]
    refine ⟨by rw [hmain, hspec], ?_⟩
    intro a b hab
    rw [hmain] at hab
    injection hab with h1
    injection h1 with ha hbits
    subst ha; subst hbits
    simp only [ackUpdate, shlCheckedU32, gt_iff_lt, if_neg hns, if_pos h, if_pos hd,
      Option.map_some']
    rw [hm, Nat.or_assoc, Nat.or_self]

/-- Witness for C1: a concrete in-range delivery (fresh tracker, sequence 5)
follows the rule, and redelivery is a no-op. -/
theorem C1_witness :
    ackUpdate 0 0 5 = some (specAckUpdate 0 0 5) ∧
    ackUpdate 5 1 5 = some (5, 1) := by
  have h := C1_ack_tracker_three_case_rule 0 0 5 (by decide) (by decide) (by decide)
  exact ⟨h.1, h.2 5 1 (by decide)⟩

/-- Counterexample to C1 as stated (no restriction on the distance): from
the reachable tracker state `remote_ack = 1`, `remote_ack_bits = 1`
(fresh tracker after receiving sequence 1), an incoming sequence 34 makes
the source shift by 33: under checked arithmetic the update panics
(`none`) instead of producing the rule's result, and under release
semantics it yields ack-bits 3 — the masked shift re-enters the window —
where the rule requires 1. -/
theorem C1_counterexample :
    ackUpdate 0 0 1 = some (1, 1) ∧
    ackUpdate 1 1 34 = none ∧
    specAckUpdate 1 1 34 = (34, 1) ∧
    ackUpdateRelease 1 1 34 = (34, 3) := by
  decide

/-!
## Data model (`src/net.rs` lines 4–13)

`Snapshot` and `Packet` are parametrised by the scalar type standing for
`f32`: `Nat` (the 32-bit pattern) on the wire and in session state, `ℚ`
(the exact value) in the interpolation arithmetic.  `NetLayer` is the
session state; the `UdpSocket` field is the external transport and is
omitted (its effects are explicit parameters of `send`/`recv`).
-/

/-- Source: `struct Snapshot { tick: u32, entities: Vec<(u32, [f32; 3], [f32; 4])> }` -/
structure Snapshot (α : Type) where
  tick : Nat
  entities : List (Nat × (α × α × α) × (α × α × α × α))
deriving DecidableEq

/-- Source: `struct Packet { seq: u32, ack: u32, ack_bits: u32, cmds: Vec<(u32, u8, u64)>, snap: Option<Snapshot> }` -/
structure Packet (α : Type) where
  seq : Nat
  ack : Nat
  ack_bits : Nat
  cmds : List (Nat × Nat × Nat)
  snap : Option (Snapshot α)
deriving DecidableEq

/-- Source: `struct NetLayer { .. }` without the `UdpSocket` (external transport). -/
structure NetLayer where
  snapshots : List (Snapshot Nat)
  tick : Nat
  seq : Nat
  ack : Nat
  ack_bits : Nat
  cmd_queue : List (Nat × Nat)
  last_snap : Option (Snapshot Nat)
  interp_delay : Nat
deriving DecidableEq

/-- The state set up by `NetLayer::new` (socket binding is external). -/
def initState : NetLayer :=
  { snapshots := [], tick := 0, seq := 0, ack := 0, ack_bits := 0,
    cmd_queue := [], last_snap := none, interp_delay := 3 }

/-!
## Snapshot Buffer (`src/net.rs` line 36)
-/

/-- One buffer insertion, from
`self.snapshots.push_back(s.clone()); if self.snapshots.len() > 64 { self.snapshots.pop_front(); }`:
append, then evict the single oldest when the length exceeds 64. -/
def ingest {α : Type} (buf : List α) (s : α) : List α :=
  if (buf ++ [s]).length > 64 then (buf ++ [s]).tail else buf ++ [s]

/-- Folding `ingest` from the empty buffer keeps exactly the most recent
64 insertions, in order. -/
theorem ingest_foldl {α : Type} (l : List α) :
    List.foldl ingest ([] : List α) l = l.drop (l.length - 64) := by
  induction l using List.reverseRecOn with
  | nil => rfl
  | append_singleton l a ih =>
    rw [List.foldl_append, List.foldl_cons, List.foldl_nil, ih]
    unfold ingest
    by_cases hlen : l.length < 64
    · have h0 : l.length - 64 = 0 := by omega
      have h1 : (l ++ [a]).length - 64 = 0 := by
        simp only [List.length_append, List.length_singleton]; omega
      have hng : ¬ (l.drop (l.length - 64) ++ [a]).length > 64 := by
        rw [List.length_append, List.length_drop]
        simp only [List.length_singleton]; omega
      rw [if_neg hng, h0, h1, List.drop_zero, List.drop_zero]
    · push_neg at hlen
      have hdroplen : (l.drop (l.length - 64)).length = 64 := by
        rw [List.length_drop]; omega
      have hgt : (l.drop (l.length - 64) ++ [a]).length > 64 := by
        rw [List.length_append, hdroplen]; simp
      rw [if_pos hgt]
      have hne : l.drop (l.length - 64) ≠ [] := by
        intro hc
        rw [hc] at hdroplen
        simp at hdroplen
      rw [List.tail_append_of_ne_nil hne, List.tail_drop]
      have hle : (l ++ [a]).length - 64 ≤ l.length := by
        simp only [List.length_append, List.length_singleton]; omega
      rw [List.drop_append_of_le_length hle]
      have harith : l.length - 64 + 1 = (l ++ [a]).length - 64 := by
        simp only [List.length_append, List.length_singleton]; omega
      rw [harith]

/-- C4: the snapshot buffer never exceeds 64 entries; insertion appends in
arrival order without deduplication, evicting only the single oldest on
overflow, so after inserting any sequence of snapshots exactly the most
recent 64 remain — in particular, after 70 insertions the oldest 6 are
gone. -/
theorem C4_snapshot_buffer_bound {α : Type} (l : List α) :
    List.foldl ingest ([] : List α) l = l.drop (l.length - 64) ∧
    (List.foldl ingest ([] : List α) l).length ≤ 64 ∧
    (l.length = 70 → List.foldl ingest ([] : List α) l = l.drop 6) := by
  refine ⟨ingest_foldl l, ?_, ?_⟩
  · rw [ingest_foldl l, List.length_drop]; omega
  · intro h70
    rw [ingest_foldl l, h70]

/-- Seventy concrete snapshots, ticks 0–69, with no entities. -/
def seventySnaps : List (Snapshot Nat) := (List.range 70).map (fun i => ⟨i, []⟩)

/-- Witness for C4: seventy concrete snapshots (ticks 0–69) leave the
buffer holding exactly ticks 6–69. -/
theorem C4_witness :
    List.foldl ingest [] seventySnaps = seventySnaps.drop 6 :=
  (C4_snapshot_buffer_bound seventySnaps).2.2
    (by rw [seventySnaps, List.length_map, List.length_range])

/-!
## Prediction Queue and Reconciliation (`src/net.rs` lines 52–57)
-/

/-- Source: `fn predict(&mut self, input: u8) { self.cmd_queue.push((self.seq, input)); }` -/
def predict (st : NetLayer) (input : Nat) : NetLayer :=
  { st with cmd_queue := st.cmd_queue ++ [(st.seq, input)] }

/-- Source: `fn reconcile(&mut self, ack_id: u32, state: Snapshot) {
self.cmd_queue.retain(|c| c.0 > ack_id); self.last_snap = Some(state); }` -/
def reconcile (st : NetLayer) (ack_id : Nat) (state : Snapshot Nat) : NetLayer :=
  { st with cmd_queue := st.cmd_queue.filter (fun c => decide (ack_id < c.1)),
            last_snap := some state }

/-- C5: `reconcile(ack_id, snapshot)` removes exactly the queue entries
tagged with a sequence number `≤ ack_id` — the result is a sublist of the
original queue (order and the surviving entries preserved) whose members
are precisely the original members tagged above `ack_id` — and records
the given snapshot as the new baseline; on the queue `[3,4,5,6]` with
`ack_id = 5` exactly the entry `6` survives. -/
theorem C5_reconcile_prunes (st : NetLayer) (a : Nat) (s : Snapshot Nat) :
    (reconcile st a s).last_snap = some s ∧
    (reconcile st a s).cmd_queue.Sublist st.cmd_queue ∧
    (∀ c : Nat × Nat, c ∈ (reconcile st a s).cmd_queue ↔ c ∈ st.cmd_queue ∧ a < c.1) ∧
    (reconcile { initState with cmd_queue := [(3, 0), (4, 0), (5, 0), (6, 0)] } 5 s).cmd_queue
      = [(6, 0)] := by
  refine ⟨rfl, List.filter_sublist _, ?_, rfl⟩
  intro c
  simp [reconcile, List.mem_filter]

/-- Queue growth under repeated prediction: each call appends one entry. -/
theorem predict_foldl_len (l : List Nat) :
    ∀ st : NetLayer,
      ((l.foldl predict st).cmd_queue).length = st.cmd_queue.length + l.length := by
  induction l with
  | nil => intro st; rfl
  | cons i l ih =>
    intro st
    rw [List.foldl_cons, ih]
    simp [predict]
    omega

/-- C8 (amended): the source enforces no cap on the prediction queue —
`predict` appends `(current seq, input)` unconditionally, the queue grows
by exactly one entry per call without bound if no acknowledgment arrives,
and no resource-pressure condition is surfaced to the caller. -/
theorem C8_predict_queue_unbounded (st : NetLayer) (inputs : List Nat) (i : Nat) :
    ((inputs.foldl predict st).cmd_queue).length
        = st.cmd_queue.length + inputs.length ∧
    (predict st i).cmd_queue = st.cmd_queue ++ [(st.seq, i)] :=
  ⟨predict_foldl_len inputs st, rfl⟩

/-- Counterexample to C8 as stated: no fixed cap bounds the queue — for
any purported cap, a run of `cap + 1` predictions from a fresh session
exceeds it. -/
theorem C8_counterexample :
    ¬ ∃ cap : Nat, ∀ inputs : List Nat,
        (((inputs.foldl predict initState).cmd_queue).length ≤ cap) := by
  rintro ⟨cap, h⟩
  have h2 := h (List.replicate (cap + 1) 0)
  rw [predict_foldl_len (List.replicate (cap + 1) 0) initState] at h2
  simp [initState] at h2

/-!
## Session send (`src/net.rs` lines 23–28)

`send` builds a `Packet` from the current `seq`/`ack`/`ack_bits`, widens
each `(u32, u8)` command with the reserved `0u64`, hands the encoded
bytes to the socket — whose outcome `send_to(..).ok()` the source
discards, modelled by the ignored parameter `_tx` — and then increments
`self.seq`.  The checked `u32` increment panics (`none`) at `2^32 - 1`.
-/

/-- The packet assembled by `send` before transmission. -/
def mkPacket (st : NetLayer) (cmds : List (Nat × Nat)) (snap : Option (Snapshot Nat)) :
    Packet Nat :=
  { seq := st.seq, ack := st.ack, ack_bits := st.ack_bits,
    cmds := cmds.map (fun c => (c.1, c.2, 0)), snap := snap }

/-- Source: `fn send(&mut self, peer: &str, cmds: &[(u32, u8)], snap: Option<Snapshot>)`.
Returns the transmitted packet and the updated state; `_tx` is the
transport outcome the source ignores. -/
def send (st : NetLayer) (cmds : List (Nat × Nat)) (snap : Option (Snapshot Nat))
    (_tx : Bool) : Option (Packet Nat × NetLayer) :=
  (addCheckedU32 st.seq 1).map (fun sq => (mkPacket st cmds snap, { st with seq := sq }))

/-- Arguments of one `send` call: commands, optional snapshot, transport outcome. -/
abbrev SendArgs : Type := List (Nat × Nat) × Option (Snapshot Nat) × Bool

/-- A sequence of `send` calls, threading the session state. -/
def sendN (st : NetLayer) (l : List SendArgs) : Option NetLayer :=
  l.foldlM (fun s a => (send s a.1 a.2.1 a.2.2).map Prod.snd) st

/-- One in-range `send` call: the transmitted packet and successor state. -/
theorem send_eq (st : NetLayer) (c : List (Nat × Nat)) (sn : Option (Snapshot Nat))
    (b : Bool) (h : st.seq + 1 < 2 ^ 32) :
    send st c sn b = some (mkPacket st c sn, { st with seq := st.seq + 1 }) := by
  unfold send addCheckedU32
  rw [if_pos h]
  rfl

/-- Iterated sends: each call adds one to the counter and touches nothing else. -/
theorem sendN_adds_length (l : List SendArgs) :
    ∀ st : NetLayer, st.seq + l.length < 2 ^ 32 →
      sendN st l = some { st with seq := st.seq + l.length } := by
  induction l with
  | nil =>
    intro st _
    show some st = _
    cases st
    rfl
  | cons a l ih =>
    intro st h
    have hone : st.seq + 1 < 2 ^ 32 := by
      simp only [List.length_cons] at h
      omega
    have hstep : sendN st (a :: l) = sendN { st with seq := st.seq + 1 } l := by
      show List.foldlM _ st (a :: l) = _
      rw [List.foldlM_cons, send_eq st a.1 a.2.1 a.2.2 hone]
      rfl
    rw [hstep, ih { st with seq := st.seq + 1 } (by simp only [List.length_cons] at h ⊢; omega)]
    have : st.seq + 1 + l.length = st.seq + (a :: l).length := by
      simp only [List.length_cons]; omega
    simp only [this]

/-- C6 (amended): as long as the `u32` counter does not overflow
(`initial + N < 2^32`), after `N` calls to `send` the outbound sequence
counter equals its initial value plus `N`, regardless of each call's
transmission outcome, and every transmitted packet carries the
pre-increment sequence number together with the session's current `ack`
and `ack_bits`.  (At `2^32 - 1` the increment overflows: panic under
overflow checks, wrap-around in release builds.) -/
theorem C6_send_seq_monotone (st : NetLayer) (c : List (Nat × Nat))
    (sn : Option (Snapshot Nat)) (b b' : Bool) (l : List SendArgs)
    (h1 : st.seq + 1 < 2 ^ 32) (hN : st.seq + l.length < 2 ^ 32) :
    send st c sn b
        = some ({ seq := st.seq, ack := st.ack, ack_bits := st.ack_bits,
                  cmds := c.map (fun x => (x.1, x.2, 0)), snap := sn },
                { st with seq := st.seq + 1 }) ∧
    send st c sn b = send st c sn b' ∧
    sendN st l = some { st with seq := st.seq + l.length } :=
  ⟨send_eq st c sn b h1, rfl, sendN_adds_length l st hN⟩

/-- Witness for C6: two concrete sends from a fresh session leave the
counter at 2. -/
theorem C6_witness :
    initState.seq + 2 < 2 ^ 32 ∧
    sendN initState [([], none, true), ([(1, 2)], none, false)]
      = some { initState with seq := initState.seq + 2 } := by
  refine ⟨by decide, ?_⟩
  exact (C6_send_seq_monotone initState [] none true false
    [([], none, true), ([(1, 2)], none, false)] (by decide) (by decide)).2.2

/-- Counterexample to C6 as stated (for every `N`): at the reachable
counter value `2^32 - 1` (after `2^32 - 1` sends) the next `send`
overflows the `u32` counter — it panics under overflow checks instead of
reaching `initial + N`, and wraps to 0 in release builds. -/
theorem C6_counterexample :
    send { initState with seq := 2 ^ 32 - 1 } [] none true = none ∧
    (2 ^ 32 - 1 + 1) % 2 ^ 32 ≠ 2 ^ 32 - 1 + 1 := by
  constructor
  · rfl
  · decide

/-!
## Interpolator (`src/net.rs` lines 41–50)

Pure function over the snapshot buffer.  The `f32` arithmetic of the
source is modelled exactly over `ℚ`, with the source's expressions
translated term by term:
`let a = (target_tick - w[0].tick) as f32 / (w[1].tick - w[0].tick) as f32`
(`u32` subtraction first, then conversion) and per-axis
`e0.1[k] + a * (e1.1[k] - e0.1[k])`.
-/

/-- One entity entry `(entity_id, position, orientation)`. -/
abbrev Ent (α : Type) : Type := Nat × (α × α × α) × (α × α × α × α)

/-- The output entry the source builds for one zipped entity pair:
per-axis linear interpolation of the position, id and orientation taken
from the first snapshot (`// rotation simplified`). -/
def lerpEnt (a : ℚ) (e0 e1 : Ent ℚ) : Ent ℚ :=
  (e0.1,
   (e0.2.1.1 + a * (e1.2.1.1 - e0.2.1.1),
    e0.2.1.2.1 + a * (e1.2.1.2.1 - e0.2.1.2.1),
    e0.2.1.2.2 + a * (e1.2.1.2.2 - e0.2.1.2.2)),
   e0.2.2)

/-- The bracketing test of the source's `find`:
`w[0].tick <= target_tick && target_tick < w[1].tick`. -/
def bracketPred (t : Nat) (w : Snapshot ℚ × Snapshot ℚ) : Bool :=
  decide (w.1.tick ≤ t ∧ t < w.2.tick)

/-- The `windows(2)` view of the buffer: the list of consecutive pairs. -/
def windows2 {α : Type} (l : List α) : List (α × α) := l.zip l.tail

/-- Source: `fn interpolate(&self, target_tick: u32)`: find the first consecutive
pair bracketing the target tick, then zip the two entity lists and
interpolate positionally. -/
def interpolate (buf : List (Snapshot ℚ)) (t : Nat) : Option (List (Ent ℚ)) :=
  ((windows2 buf).find? (bracketPred t)).map (fun w =>
    let a : ℚ := ((t - w.1.tick : Nat) : ℚ) / ((w.2.tick - w.1.tick : Nat) : ℚ)
    (w.1.entities.zip w.2.entities).map (fun p => lerpEnt a p.1 p.2))

/-- Modelled from the spec (§4.4 algorithm, C2's wording): scan
consecutive pairs `(S0, S1)` in buffer order and select the first with
`S0.tick <= target_tick < S1.tick`; no data when no such pair exists. -/
def selectPair : List (Snapshot ℚ) → Nat → Option (Snapshot ℚ × Snapshot ℚ)
  | s0 :: s1 :: rest, t =>
    if s0.tick ≤ t ∧ t < s1.tick then some (s0, s1) else selectPair (s1 :: rest) t
  | _, _ => none

/-- Modelled from the spec: the linear interpolation `p0 + a*(p1-p0)`. -/
def specLerp (a p0 p1 : ℚ) : ℚ := p0 + a * (p1 - p0)

/-- Modelled from the spec (§4.4, C2's wording): for the selected pair,
fraction `a = (target_tick - S0.tick) / (S1.tick - S0.tick)`; each output
entry pairs the snapshots' entities positionally with position
`p0 + a*(p1-p0)` per axis, orientation from `S0` unchanged, entity id
from `S0`. -/
def interpolateSpec (buf : List (Snapshot ℚ)) (t : Nat) : Option (List (Ent ℚ)) :=
  (selectPair buf t).map (fun w =>
    let a : ℚ := ((t - w.1.tick : Nat) : ℚ) / ((w.2.tick - w.1.tick : Nat) : ℚ)
    (w.1.entities.zip w.2.entities).map (fun p =>
      (p.1.1,
       (specLerp a p.1.2.1.1 p.2.2.1.1,
        specLerp a p.1.2.1.2.1 p.2.2.1.2.1,
        specLerp a p.1.2.1.2.2 p.2.2.1.2.2),
       p.1.2.2)))

/-- The source's `windows(2).find(..)` scan selects exactly the pair the
spec's scan selects. -/
theorem find_windows_eq_select (t : Nat) :
    ∀ buf : List (Snapshot ℚ), (windows2 buf).find? (bracketPred t) = selectPair buf t := by
  intro buf
  induction buf with
  | nil => rfl
  | cons s0 rest ih =>
    cases rest with
    | nil => rfl
    | cons s1 rest2 =>
      have hw : windows2 (s0 :: s1 :: rest2) = (s0, s1) :: windows2 (s1 :: rest2) := rfl
      rw [hw]
      by_cases hc : s0.tick ≤ t ∧ t < s1.tick
      · have hp : bracketPred t (s0, s1) = true := by
          simp [bracketPred, hc.1, hc.2]
        rw [List.find?_cons_of_pos _ hp]
        simp only [selectPair, if_pos hc]
      · have hp : ¬ bracketPred t (s0, s1) = true := by
          simp only [bracketPred, decide_eq_true_eq]
          exact hc
        rw [List.find?_cons_of_neg _ hp, ih]
        simp only [selectPair, if_neg hc]

/-- The two snapshots of the spec's boundary example: tick 10 with the
entity at the origin, tick 20 with it at `[10,0,0]`. -/
def exampleBuf : List (Snapshot ℚ) :=
  [⟨10, [(1, (0, 0, 0), (0, 0, 0, 1))]⟩, ⟨20, [(1, (10, 0, 0), (0, 0, 0, 1))]⟩]

/-- C2: `interpolate` agrees everywhere with the spec's algorithm — first
bracketing pair in buffer order, no data when none exists (in particular
for buffers of fewer than 2 snapshots), linear position, `S0`'s
orientation and id — and meets the spec's boundary examples: at tick 10
the entity is at the origin, at 15 at `[5,0,0]`, and at 20 or above there
is no data. -/
theorem C2_interpolate_matches_spec :
    (∀ (buf : List (Snapshot ℚ)) (t : Nat), interpolate buf t = interpolateSpec buf t) ∧
    interpolate exampleBuf 10 = some [(1, (0, 0, 0), (0, 0, 0, 1))] ∧
    interpolate exampleBuf 15 = some [(1, (5, 0, 0), (0, 0, 0, 1))] ∧
    interpolate exampleBuf 20 = none ∧
    interpolate exampleBuf 25 = none := by
  refine ⟨?_, ?_, ?_, ?_, ?_⟩
  · intro buf t
    unfold interpolate interpolateSpec
    rw [find_windows_eq_select]
    rfl
  · simp [interpolate, exampleBuf, windows2, bracketPred, lerpEnt]
  · simp [interpolate, exampleBuf, windows2, bracketPred, lerpEnt]
  · simp [interpolate, exampleBuf, windows2, bracketPred]
  · simp [interpolate, exampleBuf, windows2, bracketPred]

/-- C10: when `interpolate` selects a bracketing pair whose entity lists
have different lengths, the output has the length of the shorter list —
`zip` silently drops the tail of the longer list. -/
theorem C10_interpolate_truncates_to_min (buf : List (Snapshot ℚ)) (t : Nat)
    (w : Snapshot ℚ × Snapshot ℚ)
    (hsel : (windows2 buf).find? (bracketPred t) = some w) :
    (interpolate buf t).map List.length
      = some (min w.1.entities.length w.2.entities.length) := by
  unfold interpolate
  rw [hsel, Option.map_some', Option.map_some', List.length_map, List.length_zip]

/-- A buffer whose bracketing pair has two entities in the first snapshot
but only one in the second. -/
def mismatchBuf : List (Snapshot ℚ) :=
  [⟨0, [(1, (0, 0, 0), (0, 0, 0, 1)), (2, (4, 4, 4), (0, 0, 0, 1))]⟩,
   ⟨10, [(1, (10, 0, 0), (0, 0, 0, 1))]⟩]

/-- Witness for C10: with entity lists of lengths 2 and 1, the output has
length 1; the second entity of the first snapshot is silently omitted. -/
theorem C10_witness :
    (interpolate mismatchBuf 5).map List.length = some 1 :=
  C10_interpolate_truncates_to_min mismatchBuf 5
    (⟨0, [(1, (0, 0, 0), (0, 0, 0, 1)), (2, (4, 4, 4), (0, 0, 0, 1))]⟩,
     ⟨10, [(1, (10, 0, 0), (0, 0, 0, 1))]⟩) rfl

/-!
## Wire Codec

Modelled from the spec: the serializer itself (`bincode::serialize` /
`bincode::deserialize` at `src/net.rs` lines 26 and 32) is an external
crate, explicitly out of scope in the spec ("assume a deterministic
binary serializer is available"); the spec's contract is
`encode(Packet) -> bytes`, `decode(bytes) -> Packet or decode error`,
deterministic and unambiguous.  The model follows bincode's legacy
format: fixed-width little-endian integers, `u64` length prefixes for
sequences, a one-byte `0`/`1` tag for `Option` (any other tag is a
decode error), fields in declaration order, `f32` fields carried as
their four raw bytes (here: the 32-bit pattern).  Bytes are `Nat`s
below 256; decoding consumes from the front and is total, returning
`none` on truncated or malformed input.
-/

/-- Encode a `u8` (one byte). -/
def eU8 (x : Nat) : List Nat := [x % 2 ^ 8]

/-- Encode a `u32`, little-endian. -/
def eU32 (x : Nat) : List Nat :=
  [x % 2 ^ 8, x / 2 ^ 8 % 2 ^ 8, x / 2 ^ 16 % 2 ^ 8, x / 2 ^ 24 % 2 ^ 8]

/-- Encode a `u64`, little-endian. -/
def eU64 (x : Nat) : List Nat :=
  [x % 2 ^ 8, x / 2 ^ 8 % 2 ^ 8, x / 2 ^ 16 % 2 ^ 8, x / 2 ^ 24 % 2 ^ 8,
   x / 2 ^ 32 % 2 ^ 8, x / 2 ^ 40 % 2 ^ 8, x / 2 ^ 48 % 2 ^ 8, x / 2 ^ 56 % 2 ^ 8]

/-- Decode a `u8`; fails on empty input. -/
def dU8 : List Nat → Option (Nat × List Nat)
  | b :: r => some (b, r)
  | [] => none

/-- Decode a little-endian `u32`; fails on fewer than 4 bytes. -/
def dU32 : List Nat → Option (Nat × List Nat)
  | b0 :: b1 :: b2 :: b3 :: r =>
      some (b0 + 2 ^ 8 * b1 + 2 ^ 16 * b2 + 2 ^ 24 * b3, r)
  | _ => none

/-- Decode a little-endian `u64`; fails on fewer than 8 bytes. -/
def dU64 : List Nat → Option (Nat × List Nat)
  | b0 :: b1 :: b2 :: b3 :: b4 :: b5 :: b6 :: b7 :: r =>
      some (b0 + 2 ^ 8 * b1 + 2 ^ 16 * b2 + 2 ^ 24 * b3 + 2 ^ 32 * b4
              + 2 ^ 40 * b5 + 2 ^ 48 * b6 + 2 ^ 56 * b7, r)
  | _ => none

/-- Encode the elements of a sequence, in order (length is prefixed
separately). -/
def eListElems {β : Type} (enc : β → List Nat) : List β → List Nat
  | [] => []
  | x :: xs => enc x ++ eListElems enc xs

/-- Decode exactly `n` elements. -/
def dListElems {β : Type} (dec : List Nat → Option (β × List Nat)) :
    Nat → List Nat → Option (List β × List Nat)
  | 0, b => some ([], b)
  | n + 1, b =>
    (dec b).bind fun x =>
    (dListElems dec n x.2).bind fun xs =>
    some (x.1 :: xs.1, xs.2)

/-- Encode one command `(u32, u8, u64)`. -/
def eCmd (c : Nat × Nat × Nat) : List Nat := eU32 c.1 ++ eU8 c.2.1 ++ eU64 c.2.2

/-- Decode one command. -/
def dCmd (b : List Nat) : Option ((Nat × Nat × Nat) × List Nat) :=
  (dU32 b).bind fun i =>
  (dU8 i.2).bind fun c =>
  (dU64 c.2).bind fun v =>
  some ((i.1, c.1, v.1), v.2)

/-- Encode one entity `(u32, [f32; 3], [f32; 4])` (each `f32` as its
4-byte pattern). -/
def eEntity (e : Ent Nat) : List Nat :=
  eU32 e.1 ++ eU32 e.2.1.1 ++ eU32 e.2.1.2.1 ++ eU32 e.2.1.2.2 ++
  eU32 e.2.2.1 ++ eU32 e.2.2.2.1 ++ eU32 e.2.2.2.2.1 ++ eU32 e.2.2.2.2.2

/-- Decode one entity. -/
def dEntity (b : List Nat) : Option (Ent Nat × List Nat) :=
  (dU32 b).bind fun i =>
  (dU32 i.2).bind fun p1 =>
  (dU32 p1.2).bind fun p2 =>
  (dU32 p2.2).bind fun p3 =>
  (dU32 p3.2).bind fun q1 =>
  (dU32 q1.2).bind fun q2 =>
  (dU32 q2.2).bind fun q3 =>
  (dU32 q3.2).bind fun q4 =>
  some ((i.1, (p1.1, p2.1, p3.1), (q1.1, q2.1, q3.1, q4.1)), q4.2)

/-- Encode a snapshot: tick, then the length-prefixed entity list. -/
def eSnap (s : Snapshot Nat) : List Nat :=
  eU32 s.tick ++ eU64 s.entities.length ++ eListElems eEntity s.entities

/-- Decode a snapshot. -/
def dSnap (b : List Nat) : Option (Snapshot Nat × List Nat) :=
  (dU32 b).bind fun t =>
  (dU64 t.2).bind fun n =>
  (dListElems dEntity n.1 n.2).bind fun es =>
  some (⟨t.1, es.1⟩, es.2)

/-- Encode an optional snapshot: tag byte 0 (absent) or 1 (present). -/
def eOptSnap : Option (Snapshot Nat) → List Nat
  | none => [0]
  | some s => 1 :: eSnap s

/-- Decode an optional snapshot; any tag other than 0 or 1 is a decode
error. -/
def dOptSnap (b : List Nat) : Option (Option (Snapshot Nat) × List Nat) :=
  (dU8 b).bind fun tg =>
    if tg.1 = 0 then some (none, tg.2)
    else if tg.1 = 1 then (dSnap tg.2).bind fun p => some (some p.1, p.2)
    else none

/-- Spec contract `encode(Packet) -> bytes`: fields in declaration order. -/
def encode (p : Packet Nat) : List Nat :=
  eU32 p.seq ++ eU32 p.ack ++ eU32 p.ack_bits ++
  eU64 p.cmds.length ++ eListElems eCmd p.cmds ++ eOptSnap p.snap

/-- Spec contract `decode(bytes) -> Packet or decode error`: total, `none` on
malformed or truncated input; trailing bytes are ignored. -/
def decode (b : List Nat) : Option (Packet Nat) :=
  (dU32 b).bind fun sq =>
  (dU32 sq.2).bind fun ak =>
  (dU32 ak.2).bind fun bits =>
  (dU64 bits.2).bind fun n =>
  (dListElems dCmd n.1 n.2).bind fun cs =>
  (dOptSnap cs.2).bind fun sn =>
  some ⟨sq.1, ak.1, bits.1, cs.1, sn.1⟩

/-- A constructible entity: every field fits its Rust width. -/
abbrev EntWF (e : Ent Nat) : Prop :=
  e.1 < 2 ^ 32 ∧ e.2.1.1 < 2 ^ 32 ∧ e.2.1.2.1 < 2 ^ 32 ∧ e.2.1.2.2 < 2 ^ 32 ∧
  e.2.2.1 < 2 ^ 32 ∧ e.2.2.2.1 < 2 ^ 32 ∧ e.2.2.2.2.1 < 2 ^ 32 ∧ e.2.2.2.2.2 < 2 ^ 32

/-- A constructible command: `(u32, u8, u64)` widths. -/
abbrev CmdWF (c : Nat × Nat × Nat) : Prop :=
  c.1 < 2 ^ 32 ∧ c.2.1 < 2 ^ 8 ∧ c.2.2 < 2 ^ 64

/-- A constructible snapshot. -/
abbrev SnapWF (s : Snapshot Nat) : Prop :=
  s.tick < 2 ^ 32 ∧ s.entities.length < 2 ^ 64 ∧ ∀ e ∈ s.entities, EntWF e

/-- A constructible optional snapshot. -/
abbrev OptSnapWF : Option (Snapshot Nat) → Prop
  | none => True
  | some s => SnapWF s

/-- A constructible packet: every field fits its declared Rust width. -/
abbrev PacketWF (p : Packet Nat) : Prop :=
  p.seq < 2 ^ 32 ∧ p.ack < 2 ^ 32 ∧ p.ack_bits < 2 ^ 32 ∧
  p.cmds.length < 2 ^ 64 ∧ (∀ c ∈ p.cmds, CmdWF c) ∧ OptSnapWF p.snap

/-- Round trip for `u8`. -/
theorem dU8_eU8 (x : Nat) (r : List Nat) (h : x < 2 ^ 8) :
    dU8 (eU8 x ++ r) = some (x, r) := by
  have hx : x % 2 ^ 8 = x := Nat.mod_eq_of_lt h
  simp [eU8, dU8, hx]
  omega

/-- Round trip for `u32`. -/
theorem dU32_eU32 (x : Nat) (r : List Nat) (h : x < 2 ^ 32) :
    dU32 (eU32 x ++ r) = some (x, r) := by
  simp only [eU32, List.cons_append, List.nil_append, dU32, Option.some.injEq,
    Prod.mk.injEq]
  norm_num
  omega

/-- Round trip for `u64`. -/
theorem dU64_eU64 (x : Nat) (r : List Nat) (h : x < 2 ^ 64) :
    dU64 (eU64 x ++ r) = some (x, r) := by
  simp only [eU64, List.cons_append, List.nil_append, dU64, Option.some.injEq,
    Prod.mk.injEq]
  norm_num
  omega

/-- Element-list round trip, given a round trip for each element. -/
theorem dListElems_round {β : Type} (dec : List Nat → Option (β × List Nat))
    (enc : β → List Nat) (l : List β) :
    (∀ x ∈ l, ∀ r, dec (enc x ++ r) = some (x, r)) →
      ∀ r, dListElems dec l.length (eListElems enc l ++ r) = some (l, r) := by
  induction l with
  | nil => intro _ r; rfl
  | cons x xs ih =>
    intro hd r
    have hx := hd x (List.mem_cons_self x xs)
    have hxs := ih (fun y hy => hd y (List.mem_cons_of_mem x hy))
    simp only [eListElems, List.length_cons, List.append_assoc, dListElems]
    rw [hx, Option.some_bind, hxs, Option.some_bind]

/-- Command round trip. -/
theorem dCmd_eCmd (c : Nat × Nat × Nat) (hw : CmdWF c) (r : List Nat) :
    dCmd (eCmd c ++ r) = some (c, r) := by
  obtain ⟨i, u, v⟩ := c
  obtain ⟨h1, h2, h3⟩ := hw
  simp only [eCmd, List.append_assoc]
  unfold dCmd
  rw [dU32_eU32 _ _ h1, Option.some_bind, dU8_eU8 _ _ h2, Option.some_bind,
    dU64_eU64 _ _ h3, Option.some_bind]

/-- Entity round trip. -/
theorem dEntity_eEntity (e : Ent Nat) (hw : EntWF e) (r : List Nat) :
    dEntity (eEntity e ++ r) = some (e, r) := by
  obtain ⟨i, ⟨p1, p2, p3⟩, ⟨q1, q2, q3, q4⟩⟩ := e
  obtain ⟨h1, h2, h3, h4, h5, h6, h7, h8⟩ := hw
  simp only [eEntity, List.append_assoc]
  unfold dEntity
  rw [dU32_eU32 _ _ h1, Option.some_bind, dU32_eU32 _ _ h2, Option.some_bind,
    dU32_eU32 _ _ h3, Option.some_bind, dU32_eU32 _ _ h4, Option.some_bind,
    dU32_eU32 _ _ h5, Option.some_bind, dU32_eU32 _ _ h6, Option.some_bind,
    dU32_eU32 _ _ h7, Option.some_bind, dU32_eU32 _ _ h8, Option.some_bind]

/-- Snapshot round trip. -/
theorem dSnap_eSnap (s : Snapshot Nat) (hw : SnapWF s) (r : List Nat) :
    dSnap (eSnap s ++ r) = some (s, r) := by
  obtain ⟨t, es⟩ := s
  obtain ⟨ht, hlen, hes⟩ := hw
  have hels := dListElems_round dEntity eEntity es
    (fun e he r2 => dEntity_eEntity e (hes e he) r2)
  simp only [eSnap, List.append_assoc]
  unfold dSnap
  rw [dU32_eU32 _ _ ht, Option.some_bind, dU64_eU64 _ _ hlen, Option.some_bind,
    hels, Option.some_bind]

/-- Optional-snapshot round trip. -/
theorem dOptSnap_eOptSnap (sn : Option (Snapshot Nat)) (hw : OptSnapWF sn)
    (r : List Nat) : dOptSnap (eOptSnap sn ++ r) = some (sn, r) := by
  cases sn with
  | none => rfl
  | some s =>
    simp only [eOptSnap, List.cons_append]
    unfold dOptSnap
    rw [show dU8 (1 :: (eSnap s ++ r)) = some (1, eSnap s ++ r) from rfl,
      Option.some_bind, if_neg (by norm_num), if_pos rfl,
      dSnap_eSnap s hw r, Option.some_bind]

/-- C9: decoding the encoding of any constructible packet — empty `cmds`
and absent snapshot included — yields the packet back. -/
theorem C9_codec_round_trip (p : Packet Nat) (hw : PacketWF p) :
    decode (encode p) = some p := by
  obtain ⟨sq, ak, bits, cs, sn⟩ := p
  obtain ⟨h1, h2, h3, h4, h5, h6⟩ := hw
  have hcs := dListElems_round dCmd eCmd cs (fun c hc r => dCmd_eCmd c (h5 c hc) r)
  have hopt : dOptSnap (eOptSnap sn) = some (sn, []) := by
    have := dOptSnap_eOptSnap sn h6 []
    rwa [List.append_nil] at this
  simp only [encode, List.append_assoc]
  unfold decode
  rw [dU32_eU32 _ _ h1, Option.some_bind, dU32_eU32 _ _ h2, Option.some_bind,
    dU32_eU32 _ _ h3, Option.some_bind, dU64_eU64 _ _ h4, Option.some_bind,
    hcs, Option.some_bind, hopt, Option.some_bind]

/-- A packet with empty commands and no snapshot. -/
def pEmpty : Packet Nat := { seq := 0, ack := 0, ack_bits := 0, cmds := [], snap := none }

/-- A packet exercising every field, including a carried snapshot. -/
def pFull : Packet Nat :=
  { seq := 7, ack := 3, ack_bits := 5, cmds := [(9, 200, 2 ^ 40)],
    snap := some ⟨11, [(1, (2, 3, 4), (5, 6, 7, 8))]⟩ }

/-- Witness for C9: the round trip holds at the empty packet and at a
fully populated packet. -/
theorem C9_witness :
    PacketWF pEmpty ∧ decode (encode pEmpty) = some pEmpty ∧
    PacketWF pFull ∧ decode (encode pFull) = some pFull := by
  have hwe : PacketWF pEmpty := by unfold pEmpty; decide
  have hwf : PacketWF pFull := by unfold pFull; decide
  exact ⟨hwe, C9_codec_round_trip pEmpty hwe, hwf, C9_codec_round_trip pFull hwf⟩

/-!
## Session recv (`src/net.rs` lines 30–39)

`self.sock.recv(&mut buf).ok().and_then(|n| bincode::deserialize(&buf[..n]).ok())
 .map(|pkt| { ack update; snapshot ingest; pkt })`.
The socket's outcome is the explicit `datagram` parameter (`none` =
would-block / receive error, treated as "nothing available").  The outer
`Option` of the result is the checked-arithmetic panic (`none` = the ack
update's shift overflowed); the inner `Option` is the source's return
value (`none` = no packet this call).
-/

/-- One `recv` call on the given incoming datagram. -/
def recv (st : NetLayer) (datagram : Option (List Nat)) :
    Option (Option (Packet Nat) × NetLayer) :=
  match datagram with
  | none => some (none, st)
  | some bytes =>
    match decode bytes with
    | none => some (none, st)
    | some pkt =>
      match ackUpdate st.ack st.ack_bits pkt.seq with
      | none => none
      | some ab =>
        let st1 : NetLayer := { st with ack := ab.1, ack_bits := ab.2 }
        let st2 : NetLayer :=
          match pkt.snap with
          | some s => { st1 with snapshots := ingest st1.snapshots s }
          | none => st1
        some (some pkt, st2)

/-- C7: when the incoming datagram fails to decode, `recv` returns no
packet and leaves the whole session state — remote ack, ack-bits,
snapshot buffer and all — unchanged; the datagram is simply dropped. -/
theorem C7_decode_failure_drops_datagram (st : NetLayer) (bytes : List Nat)
    (h : decode bytes = none) :
    recv st (some bytes) = some (none, st) := by
  simp only [recv, h]

/-- Witness for C7: the empty datagram fails to decode and leaves a fresh
session untouched. -/
theorem C7_witness :
    decode [] = none ∧ recv initState (some []) = some (none, initState) :=
  ⟨rfl, C7_decode_failure_drops_datagram initState [] rfl⟩

/-- A well-formed hostile packet whose sequence number (40) is 32 or more
ahead of a fresh session's remote ack (0). -/
def hostilePacket : Packet Nat :=
  { seq := 40, ack := 0, ack_bits := 0, cmds := [], snap := none }

/-- C3 is wrong about the code: this datagram decodes successfully, yet
`recv` reaches `self.ack_bits << 40` — an overflowing shift that panics
under overflow checks (and masks the shift amount in release builds
instead of ageing out the window), so the receive path is not total. -/
theorem C3_recv_overflow_panics :
    decode (encode hostilePacket) = some hostilePacket ∧
    recv initState (some (encode hostilePacket)) = none ∧
    ackUpdate 0 0 40 = none := by
  refine ⟨rfl, ?_, rfl⟩
  rfl

end Net
